import Mathlib

/-!
Shallow embedding of the desktop invoice application (src/5.py) and proofs
about its pricing, numbering, rendering, and persistence behaviour.

Conventions of the embedding:
* Python `float` arithmetic is embedded as exact rational arithmetic (`ℚ`),
  the idealized arithmetic in which the specification's formulas are written;
  Python `int` is embedded as `ℤ` (quantities) or `ℕ` (row ids).
* The SQLite tables are embedded as lists of rows in insertion (rowid) order;
  the filesystem is embedded as the list of paths currently present.
* GUI-only concerns (widgets, message boxes) are outside the model; the
  functions below embed the data transformations the handlers perform.
-/

namespace Invoice5

/-- One invoice line as handed to the pricing code: the dicts produced by
`build_invoice_data_from_form` (src/5.py:541-551) and consumed by
`create_invoice_pdf` and the row values read back by `compute_totals`. -/
structure LineItem where
  product_name : String
  qty : ℤ
  unit_price : ℚ
  discount_percent : ℚ
  tax_percent : ℚ
deriving Repr, DecidableEq

/-- Per line, `base = unit * qty` (src/5.py:197, 454, 517, 596). -/
def base (it : LineItem) : ℚ := it.unit_price * (it.qty : ℚ)

/-- Per line, `discount_amount = base * (d_pct/100.0)` (src/5.py:198, 455, 518, 597). -/
def discount_amount (it : LineItem) : ℚ := base it * (it.discount_percent / 100)

/-- Per line, `taxable = base - discount_amount` (src/5.py:199, 456, 519, 598). -/
def taxable (it : LineItem) : ℚ := base it - discount_amount it

/-- Per line, `tax_amount = taxable * (t_pct/100.0)` (src/5.py:200, 457, 520, 599). -/
def tax_amount (it : LineItem) : ℚ := taxable it * (it.tax_percent / 100)

/-- Per line, `line_total = taxable + tax_amount` (src/5.py:201, 458, 600). -/
def line_total (it : LineItem) : ℚ := taxable it + tax_amount it

/-- The four values returned by `compute_totals` (src/5.py:531). -/
structure Totals where
  subtotal : ℚ
  taxes_total : ℚ
  inv_disc_pct : ℚ
  final_total : ℚ
deriving Repr, DecidableEq

/-- `compute_totals` (src/5.py:507-531): fold over the item rows accumulating
`subtotal += taxable` and `taxes_total += tax_amount`, then
`inv_disc_amount = subtotal * (inv_disc_pct/100.0)` and
`final_total = subtotal + taxes_total - inv_disc_amount`. -/
def compute_totals (items : List LineItem) (inv_disc_pct : ℚ) : Totals :=
  let acc := items.foldl (fun (a : ℚ × ℚ) it => (a.1 + taxable it, a.2 + tax_amount it)) (0, 0)
  let inv_disc_amount := acc.1 * (inv_disc_pct / 100)
  { subtotal := acc.1, taxes_total := acc.2, inv_disc_pct := inv_disc_pct,
    final_total := acc.1 + acc.2 - inv_disc_amount }

/-- `tax_totals.setdefault(t_pct, 0.0); tax_totals[t_pct] += tax_amount`
(src/5.py:225-226), on an association list keyed by the rate value: add `v`
into the existing bucket for key `k`, or append a new bucket. -/
def insert_add : List (ℚ × ℚ) → ℚ → ℚ → List (ℚ × ℚ)
  | [], k, v => [(k, v)]
  | (k', v') :: rest, k, v =>
      if k' = k then (k', v' + v) :: rest else (k', v') :: insert_add rest k v

/-- One iteration of the totals bookkeeping in the `create_invoice_pdf` item
loop (src/5.py:223-226): `subtotal += taxable`, and when the rate is truthy
(`if t_pct:`, i.e. nonzero) add the line's tax into that rate's bucket. -/
def pdf_step (a : ℚ × List (ℚ × ℚ)) (it : LineItem) : ℚ × List (ℚ × ℚ) :=
  (a.1 + taxable it,
   if it.tax_percent ≠ 0 then insert_add a.2 it.tax_percent (tax_amount it) else a.2)

/-- Subtotal and per-rate tax buckets accumulated by the item loop of
`create_invoice_pdf` (src/5.py:188-226), starting from `0.0` and `{}`. -/
def pdf_totals (items : List LineItem) : ℚ × List (ℚ × ℚ) :=
  items.foldl pdf_step (0, [])

/-- Rate lookup in the association list embedding of the `tax_totals` dict. -/
def lookup_rate (tt : List (ℚ × ℚ)) (r : ℚ) : Option ℚ :=
  (tt.find? (fun p => p.1 = r)).map Prod.snd

/-- The tax lines rendered in the totals block (src/5.py:230-231):
`for pct, amt in sorted(tax_totals.items())`, one rendered line per bucket. -/
def rendered_tax_lines (items : List LineItem) : List (ℚ × ℚ) :=
  List.insertionSort (fun a b => a.1 ≤ b.1) (pdf_totals items).2

/-- The value computed and returned by `create_invoice_pdf` (src/5.py:232-244):
`invoice_disc_amount = subtotal * (pct/100.0)`;
`final_total = subtotal + sum(tax_totals.values()) - invoice_disc_amount`. -/
def create_invoice_pdf_final_total (items : List LineItem) (invoice_discount_pct : ℚ) : ℚ :=
  let subtotal := (pdf_totals items).1
  let invoice_disc_amount := subtotal * (invoice_discount_pct / 100)
  subtotal + ((pdf_totals items).2.map Prod.snd).sum - invoice_disc_amount

/-- Observable emissions of the `create_invoice_pdf` item-table loop:
a page break, a table header row, or one item row. -/
inductive REvent where
  | pageBreak
  | headerRow
  | itemRow (it : LineItem)
deriving Repr, DecidableEq

/-- The pagination behaviour of the item loop (src/5.py:203-221): before each
item row, if the cursor is past the fixed threshold (`pdf.get_y() > 250`) a new
page is started and the table header is re-emitted (src/5.py:204-213); the
header block leaves the cursor at `topY`, the re-emitted table header row is 8
units tall and each item row is 7 units tall (src/5.py:210, 215-221).
fpdf's own auto page break (margin 15, i.e. trigger at y > 282 on an A4 page)
never fires inside this loop: rows begin at a cursor of at most 257 and end by
264, so the explicit threshold at 250 is the only break point mid-table. -/
def pdf_render_rows (topY : ℚ) : ℚ → List LineItem → List REvent
  | _, [] => []
  | y, it :: rest =>
      if y > 250 then
        REvent.pageBreak :: REvent.headerRow :: REvent.itemRow it ::
          pdf_render_rows topY (topY + 8 + 7) rest
      else
        REvent.itemRow it :: pdf_render_rows topY (y + 7) rest

/-- Checks that every page break in an emission trace is immediately followed
by a re-emitted table header row. -/
def pbOk : List REvent → Bool
  | REvent.pageBreak :: rest =>
      match rest with
      | REvent.headerRow :: _ => pbOk rest
      | _ => false
  | _ :: rest => pbOk rest
  | [] => true

/-- Checks that a trace contains a page break immediately after some item row,
i.e. a break in the middle of the table rather than between sections. -/
def hasMidBreak : List REvent → Bool
  | REvent.itemRow _ :: REvent.pageBreak :: _ => true
  | _ :: rest => hasMidBreak rest
  | [] => false

/-- Row of the `customers` table (src/5.py:33-39). -/
structure Customer where
  id : ℕ
  name : String
  address : String
  phone : String
  email : String
deriving Repr, DecidableEq

/-- Row of the `products` table (src/5.py:41-46). -/
structure Product where
  id : ℕ
  name : String
  price : ℚ
  barcode : String
deriving Repr, DecidableEq

/-- Row of the `invoices` table (src/5.py:48-62). -/
structure InvoiceRow where
  id : ℕ
  invoice_number : String
  customer_id : ℕ
  subtotal : ℚ
  taxes : ℚ
  discount_percent : ℚ
  final_total : ℚ
  status : String
  payment_method : String
  date : String
  notes : String
  file_path : String
deriving Repr, DecidableEq

/-- Row of the `invoice_items` table (src/5.py:64-75); `product_id` is NULLable. -/
structure ItemRow where
  id : ℕ
  invoice_id : ℕ
  product_id : Option ℕ
  product_name : String
  qty : ℤ
  unit_price : ℚ
  discount_percent : ℚ
  tax_percent : ℚ
  subtotal : ℚ
deriving Repr, DecidableEq

/-- The persistent state: the four SQLite tables (lists of rows in rowid
order), the set of files on disk, and the AUTOINCREMENT counters. -/
@[ext]
structure Store where
  customers : List Customer
  products : List Product
  invoices : List InvoiceRow
  invoice_items : List ItemRow
  files : List String
  nextCustomerId : ℕ
  nextInvoiceId : ℕ
  nextItemId : ℕ
deriving Repr, DecidableEq

/-- Zero-padded 4-digit formatting, Python's `f"{n:04d}"` for `n ≥ 0`. -/
def pad4 (n : ℕ) : String :=
  let s := toString n
  String.mk (List.replicate (4 - s.length) '0') ++ s

/-- SQL `value LIKE pat+"%"`: `value` starts with `pat`, as a prefix test on
the character sequences of the two strings. -/
def like_starts_with (value pat : String) : Bool :=
  pat.data.isPrefixOf value.data

/-- `generate_invoice_number` (src/5.py:111-116): `today` is the current local
date formatted `%Y%m%d`; count the invoice rows whose stored `date` matches
`LIKE today+"%"` (i.e. starts with `today`), and format
`INV-{today}-{count+1:04d}`. -/
def generate_invoice_number (s : Store) (today : String) : String :=
  let n := (s.invoices.filter (fun r => like_starts_with r.date today)).length + 1
  "INV-" ++ today ++ "-" ++ pad4 n

/-- One row of the on-screen items tree, as inserted by `add_item_to_invoice`
(src/5.py:459): `(pid, pname, qty, price, d, t, subtotal)`. -/
structure TreeRow where
  prod_id : ℕ
  product_name : String
  qty : ℤ
  unit_price : ℚ
  d_pct : ℚ
  t_pct : ℚ
  subtotal : ℚ
deriving Repr, DecidableEq

/-- Outcome of `add_item_to_invoice`: an error dialog (operation aborted, tree
unchanged) or a row appended to the items tree. -/
inductive AddItemResult where
  | err (msg : String)
  | added (row : TreeRow)
deriving Repr, DecidableEq

/-- `add_item_to_invoice` (src/5.py:428-460).  Parsed inputs are embedded as
`Option`s: `sel` is the product id parsed from the combo text (`none` when the
selection is empty or unparsable), `qty?` is `int(entry_qty.get())`, and
`d?`/`t?` are `float(...)` of the discount and tax entries (`none` when the
parse raises).  The code checks membership and parses in this order, aborting
with an error dialog on the first failure; it performs no sign or range check
on any of the numeric values. -/
def add_item_to_invoice (s : Store) (sel : Option ℕ) (qty? : Option ℤ)
    (d? t? : Option ℚ) : AddItemResult :=
  match sel with
  | none => AddItemResult.err "Invalid product selection"
  | some pid =>
    match s.products.find? (fun p => p.id = pid) with
    | none => AddItemResult.err "Product not found in DB"
    | some p =>
      match qty? with
      | none => AddItemResult.err "Quantity must be integer"
      | some qty =>
        match d?, t? with
        | some d, some t =>
          let b := p.price * (qty : ℚ)
          let disc_amt := b * (d / 100)
          let txb := b - disc_amt
          let tax_amt := txb * (t / 100)
          let sub := txb + tax_amt
          AddItemResult.added ⟨pid, p.name, qty, p.price, d, t, sub⟩
        | _, _ => AddItemResult.err "Discount and Tax must be numbers"

/-- `build_invoice_data_from_form` (src/5.py:533-551), items part: each tree
row becomes a dict of name, qty, unit price and percentages — the selected
`prod_id` and the displayed subtotal are dropped. -/
def build_invoice_data_from_form (rows : List TreeRow) : List LineItem :=
  rows.map fun r => ⟨r.product_name, r.qty, r.unit_price, r.d_pct, r.t_pct⟩

/-- The non-widget inputs of one save: the customer fields, the tree rows, the
invoice-level discount, status, payment method, and the two renderings of the
current moment (`%Y%m%d` for numbering, `%Y-%m-%d %H:%M:%S` for storage). -/
structure SaveInput where
  cust_name : String
  cust_address : String
  cust_phone : String
  cust_email : String
  rows : List TreeRow
  inv_disc_pct : ℚ
  status : String
  pay_method : String
  today : String
  date_str : String
deriving Repr, DecidableEq

/-- Customer de-duplication at the start of `save_invoice` (src/5.py:570-579):
an exact (name, phone) match reuses the existing row id, otherwise a new
customer row is inserted and committed. -/
def ensure_customer (s : Store) (inp : SaveInput) : Store × ℕ :=
  match s.customers.find? (fun cu => cu.name = inp.cust_name ∧ cu.phone = inp.cust_phone) with
  | some cu => (s, cu.id)
  | none =>
      ({ s with
          customers := s.customers ++
            [⟨s.nextCustomerId, inp.cust_name, inp.cust_address, inp.cust_phone, inp.cust_email⟩],
          nextCustomerId := s.nextCustomerId + 1 },
       s.nextCustomerId)

/-- `os.path.join(PDF_DIR, f"{inv_no}.pdf")` (src/5.py:584). -/
def pdf_path (inv_no : String) : String := "invoices/" ++ inv_no ++ ".pdf"

/-- The `invoices` row inserted by `save_invoice` (src/5.py:580-590):
`subtotal`, `taxes` and the discount percent come from `compute_totals`,
`final_total` is the value returned by `create_invoice_pdf`
(`final_total_calc`), `notes` is always empty (src/5.py:583). -/
def saved_invoice_row (s : Store) (inp : SaveInput) : InvoiceRow :=
  let s0 := (ensure_customer s inp).1
  let cust_id := (ensure_customer s inp).2
  let items := build_invoice_data_from_form inp.rows
  let tot := compute_totals items inp.inv_disc_pct
  let inv_no := generate_invoice_number s0 inp.today
  { id := s0.nextInvoiceId, invoice_number := inv_no, customer_id := cust_id,
    subtotal := tot.subtotal, taxes := tot.taxes_total,
    discount_percent := inp.inv_disc_pct,
    final_total := create_invoice_pdf_final_total items inp.inv_disc_pct,
    status := inp.status, payment_method := inp.pay_method,
    date := inp.date_str, notes := "", file_path := pdf_path inv_no }

/-- The `invoice_items` rows inserted by `save_invoice` (src/5.py:592-602):
for each item the product id is re-resolved by an exact name lookup in the
`products` table at save time (`SELECT id FROM products WHERE name=?`,
first match, `NULL` when absent), and the stored line subtotal is recomputed
as `taxable + tax_amt`. -/
def saved_item_rows (s : Store) (inp : SaveInput) : List ItemRow :=
  let s0 := (ensure_customer s inp).1
  let items := build_invoice_data_from_form inp.rows
  items.enum.map fun p =>
    { id := s0.nextItemId + p.1, invoice_id := s0.nextInvoiceId,
      product_id := (s0.products.find? (fun pr => pr.name = p.2.product_name)).map (fun pr => pr.id),
      product_name := p.2.product_name, qty := p.2.qty,
      unit_price := p.2.unit_price, discount_percent := p.2.discount_percent,
      tax_percent := p.2.tax_percent, subtotal := line_total p.2 }

/-- The commit points of `save_invoice` (src/5.py:565-608), in order: customer
ensured (committed at src/5.py:577), PDF written to disk (src/5.py:586),
invoice header row inserted and committed (src/5.py:588-590), item rows
inserted and committed (src/5.py:592-603). -/
inductive SaveStage where
  | customerDone
  | pdfWritten
  | headerCommitted
  | complete
deriving Repr, DecidableEq

/-- The observable (committed database + filesystem) state when execution of
`save_invoice` stops after the given stage.  `customerDone` is also the
observable state when `create_invoice_pdf` raises: the exception propagates
before any invoice insert. -/
def save_invoice_staged (s : Store) (inp : SaveInput) : SaveStage → Store
  | SaveStage.customerDone => (ensure_customer s inp).1
  | SaveStage.pdfWritten =>
      let s0 := (ensure_customer s inp).1
      { s0 with files := s0.files ++ [(saved_invoice_row s inp).file_path] }
  | SaveStage.headerCommitted =>
      let s0 := (ensure_customer s inp).1
      { s0 with
          files := s0.files ++ [(saved_invoice_row s inp).file_path]
          invoices := s0.invoices ++ [saved_invoice_row s inp]
          nextInvoiceId := s0.nextInvoiceId + 1 }
  | SaveStage.complete =>
      let s0 := (ensure_customer s inp).1
      { s0 with
          files := s0.files ++ [(saved_invoice_row s inp).file_path]
          invoices := s0.invoices ++ [saved_invoice_row s inp]
          nextInvoiceId := s0.nextInvoiceId + 1
          invoice_items := s0.invoice_items ++ saved_item_rows s inp
          nextItemId := s0.nextItemId + inp.rows.length }

/-- A complete, successful `save_invoice` (src/5.py:565-608); an empty items
tree aborts with an error dialog before any effect (src/5.py:567-569). -/
def save_invoice (s : Store) (inp : SaveInput) : Store :=
  if inp.rows = [] then s else save_invoice_staged s inp SaveStage.complete

/-- `delete_selected_invoice` (src/5.py:644-662), given the selected id: fetch
the row's `file_path` and remove the file when it is non-empty and present
(removal failures are swallowed), then delete the item rows, then the invoice
row, and commit. -/
def delete_selected_invoice (s : Store) (iid : ℕ) : Store :=
  let s1 :=
    match s.invoices.find? (fun r => r.id = iid) with
    | some r =>
        if r.file_path ≠ "" ∧ r.file_path ∈ s.files then
          { s with files := s.files.erase r.file_path }
        else s
    | none => s
  { s1 with
      invoice_items := s1.invoice_items.filter (fun it => ¬ it.invoice_id = iid)
      invoices := s1.invoices.filter (fun r => ¬ r.id = iid) }

/-- One row of the history listing (src/5.py:625-628). -/
structure HistRow where
  id : ℕ
  invoice_number : String
  customer_name : String
  date : String
  status : String
  final_total : ℚ
deriving Repr, DecidableEq

/-- `IFNULL(c.name,'Guest')` over the LEFT JOIN (src/5.py:625-626). -/
def customer_name_or_guest (s : Store) (cid : ℕ) : String :=
  match s.customers.find? (fun cu => cu.id = cid) with
  | some cu => cu.name
  | none => "Guest"

/-- `refresh_history` (src/5.py:623-629): a read-only projection of the
`invoices` table joined with customer names, `ORDER BY i.id DESC`.  It
executes only SELECT statements: the store is not modified. -/
def refresh_history (s : Store) : List HistRow :=
  (List.insertionSort (fun a b : InvoiceRow => b.id ≤ a.id) s.invoices).map fun r =>
    ⟨r.id, r.invoice_number, customer_name_or_guest s r.customer_id, r.date, r.status,
      r.final_total⟩

/-- `export_selected_to_excel` (src/5.py:669-685), data rows: for each selected
id, the single-invoice SELECT projected to the export columns; only SELECTs
are executed, the store is not modified. -/
def export_selected_to_excel (s : Store) (ids : List ℕ) :
    List (ℕ × String × String × String × String × ℚ × String) :=
  ids.filterMap fun iid =>
    (s.invoices.find? (fun r => r.id = iid)).map fun r =>
      (r.id, r.invoice_number, customer_name_or_guest s r.customer_id, r.date, r.status,
        r.final_total, r.file_path)

/-- `preview_pdf` (src/5.py:553-563): renders to `{inv_no}_preview.pdf` and
opens it; it reads the database (for the number) but writes only the preview
file, never a row. -/
def preview_pdf (s : Store) (inp : SaveInput) : Store :=
  if inp.rows = [] then s
  else { s with
    files := s.files ++ ["invoices/" ++ generate_invoice_number s inp.today ++ "_preview.pdf"] }

/-- The operations the History/Preview surface can run after a save without
writing any invoice row: re-listing, export, and preview re-rendering. -/
inductive ReadOp where
  | refresh
  | exportExcel (ids : List ℕ)
  | preview (inp : SaveInput)

/-- Effect of a read-style operation on the store. -/
def apply_read_op (s : Store) : ReadOp → Store
  | ReadOp.refresh => s
  | ReadOp.exportExcel _ => s
  | ReadOp.preview inp => preview_pdf s inp

/-- An empty database with fresh AUTOINCREMENT counters. -/
def exStore0 : Store := ⟨[], [], [], [], [], 1, 1, 1⟩

/-- A concrete tree row: 2 × 100.00, 10% item discount, 5% item tax. -/
def exRow1 : TreeRow := ⟨1, "Widget", 2, 100, 10, 5, 189⟩

/-- A concrete save on 2026-10-12 at 09:00. -/
def exInput1 : SaveInput :=
  ⟨"Alice", "12 Main St", "0300-1234567", "alice@example.com", [exRow1], 0,
    "Unpaid", "Cash", "20261012", "2026-10-12 09:00:00"⟩

/-- A second save, same calendar date, one hour later. -/
def exInput2 : SaveInput := { exInput1 with date_str := "2026-10-12 10:00:00" }

/-- A catalog with one product whose price is negative. -/
def exStoreC5 : Store := ⟨[], [⟨1, "Gadget", -10, ""⟩], [], [], [], 2, 1, 1⟩

/-- A catalog with two distinct products sharing the exact same name. -/
def exStoreC10 : Store := ⟨[], [⟨1, "A", 5, ""⟩, ⟨2, "A", 7, ""⟩], [], [], [], 1, 1, 1⟩

/-- A save whose first line was added from product id 2 (the second "A") and
whose second line's name matches no catalog product. -/
def exInputC10 : SaveInput :=
  ⟨"Bob", "", "0301", "", [⟨2, "A", 1, 7, 0, 0, 7⟩, ⟨9, "Nope", 1, 3, 0, 0, 3⟩], 0,
    "Paid", "Card", "20261012", "2026-10-12 11:00:00"⟩

/-- A store holding one saved invoice (id 1) with its item row and its PDF. -/
def exStoreC8 : Store :=
  ⟨[⟨1, "Alice", "12 Main St", "0300-1234567", "alice@example.com"⟩], [],
    [⟨1, "INV-20261012-0001", 1, 180, 9, 0, 189, "Unpaid", "Cash",
      "2026-10-12 09:00:00", "", "invoices/INV-20261012-0001.pdf"⟩],
    [⟨1, 1, none, "Widget", 2, 100, 10, 5, 189⟩],
    ["invoices/INV-20261012-0001.pdf"], 2, 2, 2⟩

/-- The same store after the PDF was removed from disk by hand. -/
def exStoreC8noFile : Store := { exStoreC8 with files := [] }

/-- Three lines: two share the 5% tax rate, one carries a 0% rate. -/
def exItemsC4 : List LineItem :=
  [⟨"A", 1, 100, 0, 5⟩, ⟨"B", 1, 200, 0, 5⟩, ⟨"C", 1, 50, 0, 0⟩]

/-- The item row `save_invoice` stores for the first line of `exInputC10`:
the name lookup resolves "A" to product id 1, not the selected id 2. -/
def exItemC10 : ItemRow := ⟨1, 1, some 1, "A", 1, 7, 0, 0, 7⟩

theorem lem_totals_acc (items : List LineItem) :
    ∀ a b : ℚ,
      items.foldl (fun (p : ℚ × ℚ) it => (p.1 + taxable it, p.2 + tax_amount it)) (a, b)
        = (a + (items.map taxable).sum, b + (items.map tax_amount).sum) := by
  induction items with
  | nil => intro a b; simp
  | cons it rest ih =>
      intro a b
      simp only [List.foldl_cons, List.map_cons, List.sum_cons, ih, Prod.mk.injEq]
      constructor <;> ring

theorem lem_totals_acc0 (items : List LineItem) :
    items.foldl (fun (p : ℚ × ℚ) it => (p.1 + taxable it, p.2 + tax_amount it)) 0
      = ((items.map taxable).sum, (items.map tax_amount).sum) := by
  have h := lem_totals_acc items 0 0
  simpa using h

theorem lem_compute_totals_eq (items : List LineItem) (d : ℚ) :
    compute_totals items d
      = ⟨(items.map taxable).sum, (items.map tax_amount).sum, d,
          (items.map taxable).sum + (items.map tax_amount).sum
            - (items.map taxable).sum * (d / 100)⟩ := by
  simp [compute_totals, lem_totals_acc0]

theorem lem_tax_amount_of_zero (it : LineItem) (h : it.tax_percent = 0) :
    tax_amount it = 0 := by
  simp [tax_amount, h]

theorem lem_insert_add_snd (k v : ℚ) :
    ∀ tt : List (ℚ × ℚ),
      ((insert_add tt k v).map Prod.snd).sum = (tt.map Prod.snd).sum + v := by
  intro tt
  induction tt with
  | nil => simp [insert_add]
  | cons p rest ih =>
      obtain ⟨q, w⟩ := p
      by_cases h : q = k <;> simp [insert_add, h, ih] <;> ring

theorem lem_pdf_fold (items : List LineItem) :
    ∀ (a : ℚ) (tt : List (ℚ × ℚ)),
      (items.foldl pdf_step (a, tt)).1 = a + (items.map taxable).sum
    ∧ ((items.foldl pdf_step (a, tt)).2.map Prod.snd).sum
        = (tt.map Prod.snd).sum + (items.map tax_amount).sum := by
  induction items with
  | nil => intro a tt; simp
  | cons it rest ih =>
      intro a tt
      rw [List.foldl_cons]
      by_cases h : it.tax_percent = 0
      · have hz : tax_amount it = 0 := lem_tax_amount_of_zero it h
        have hstep : pdf_step (a, tt) it = (a + taxable it, tt) := by
          simp [pdf_step, h]
        rw [hstep]
        rcases ih (a + taxable it) tt with ⟨h1, h2⟩
        refine ⟨?_, ?_⟩
        · rw [h1]; simp; ring
        · rw [h2]; simp [hz]
      · have hstep : pdf_step (a, tt) it
            = (a + taxable it, insert_add tt it.tax_percent (tax_amount it)) := by
          simp [pdf_step, h]
        rw [hstep]
        rcases ih (a + taxable it) (insert_add tt it.tax_percent (tax_amount it)) with ⟨h1, h2⟩
        refine ⟨?_, ?_⟩
        · rw [h1]; simp; ring
        · rw [h2, lem_insert_add_snd]; simp; ring

theorem lem_pdf_totals_fst (items : List LineItem) :
    (pdf_totals items).1 = (items.map taxable).sum := by
  have h := (lem_pdf_fold items 0 []).1
  simpa [pdf_totals] using h

theorem lem_pdf_totals_snd_sum (items : List LineItem) :
    ((pdf_totals items).2.map Prod.snd).sum = (items.map tax_amount).sum := by
  have h := (lem_pdf_fold items 0 []).2
  simpa [pdf_totals] using h

theorem lem_pdf_final_eq (items : List LineItem) (d : ℚ) :
    create_invoice_pdf_final_total items d
      = (items.map taxable).sum + (items.map tax_amount).sum
        - (items.map taxable).sum * (d / 100) := by
  simp [create_invoice_pdf_final_total, lem_pdf_totals_fst, lem_pdf_totals_snd_sum]

/-- Claim C1: per line the pricing computation yields `base = unit_price·qty`,
`item_discount_amount = base·item_discount_pct/100`, `taxable = base −
item_discount_amount`, `tax_amount = taxable·item_tax_pct/100` and
`line_total = taxable + tax_amount`, and in aggregate `subtotal = Σ taxable`,
`invoice_discount_amount = subtotal·invoice_discount_pct/100` and
`final_total = subtotal + Σ tax_amount − invoice_discount_amount`; the
invoice-level discount scales only the subtotal component
(`final_total = subtotal·(1 − pct/100) + Σ tax_amount`), never the
already-computed tax amounts.  This holds for `compute_totals` and for the
aggregate computed by `create_invoice_pdf`. -/
theorem C1_pricing_formulas (it : LineItem) (items : List LineItem) (d : ℚ) :
    base it = it.unit_price * (it.qty : ℚ)
  ∧ discount_amount it = base it * (it.discount_percent / 100)
  ∧ taxable it = base it - discount_amount it
  ∧ tax_amount it = taxable it * (it.tax_percent / 100)
  ∧ line_total it = taxable it + tax_amount it
  ∧ (compute_totals items d).subtotal = (items.map taxable).sum
  ∧ (compute_totals items d).taxes_total = (items.map tax_amount).sum
  ∧ (compute_totals items d).final_total
      = (items.map taxable).sum + (items.map tax_amount).sum
        - (items.map taxable).sum * (d / 100)
  ∧ (compute_totals items d).final_total
      = (items.map taxable).sum * (1 - d / 100) + (items.map tax_amount).sum
  ∧ create_invoice_pdf_final_total items d
      = (items.map taxable).sum + (items.map tax_amount).sum
        - (items.map taxable).sum * (d / 100) := by
  refine ⟨rfl, rfl, rfl, rfl, rfl, ?_, ?_, ?_, ?_, ?_⟩
  · rw [lem_compute_totals_eq]
  · rw [lem_compute_totals_eq]
  · rw [lem_compute_totals_eq]
  · rw [lem_compute_totals_eq]; ring
  · exact lem_pdf_final_eq items d

theorem lem_insert_add_keys (k v : ℚ) :
    ∀ tt : List (ℚ × ℚ),
      (insert_add tt k v).map Prod.fst
        = if k ∈ tt.map Prod.fst then tt.map Prod.fst else tt.map Prod.fst ++ [k] := by
  intro tt
  induction tt with
  | nil => simp [insert_add]
  | cons p rest ih =>
      obtain ⟨q, w⟩ := p
      by_cases h : q = k
      · simp [insert_add, h]
      · have hne : ¬ k = q := fun hk => h hk.symm
        simp only [insert_add, if_neg h, List.map_cons, ih, List.mem_cons]
        by_cases h2 : k ∈ rest.map Prod.fst
        · simp [h2, hne]
        · simp [h2, hne]

theorem lem_mem_insert_keys (tt : List (ℚ × ℚ)) (k v r : ℚ) :
    r ∈ (insert_add tt k v).map Prod.fst ↔ r ∈ tt.map Prod.fst ∨ r = k := by
  rw [lem_insert_add_keys]
  by_cases h : k ∈ tt.map Prod.fst
  · rw [if_pos h]
    constructor
    · exact fun hr => Or.inl hr
    · rintro (hr | rfl)
      · exact hr
      · exact h
  · rw [if_neg h]
    simp [List.mem_append]

theorem lem_nodup_insert_keys (tt : List (ℚ × ℚ)) (k v : ℚ)
    (h : (tt.map Prod.fst).Nodup) : ((insert_add tt k v).map Prod.fst).Nodup := by
  rw [lem_insert_add_keys]
  by_cases hk : k ∈ tt.map Prod.fst
  · rw [if_pos hk]; exact h
  · rw [if_neg hk]
    simp [List.nodup_append, h, hk]

theorem lem_lookup_insert_self (k v : ℚ) :
    ∀ tt : List (ℚ × ℚ),
      lookup_rate (insert_add tt k v) k = some ((lookup_rate tt k).getD 0 + v) := by
  intro tt
  induction tt with
  | nil => simp [insert_add, lookup_rate]
  | cons p rest ih =>
      obtain ⟨q, w⟩ := p
      by_cases h : q = k
      · simp [insert_add, h, lookup_rate]
      · have hne : ¬ k = q := fun hk => h hk.symm
        simp only [insert_add, if_neg h, lookup_rate, List.find?_cons]
        have : (decide (q = k)) = false := by simp [h]
        simp [this, lookup_rate] at ih ⊢
        exact ih

theorem lem_lookup_insert_other (k v r : ℚ) (hr : r ≠ k) :
    ∀ tt : List (ℚ × ℚ),
      lookup_rate (insert_add tt k v) r = lookup_rate tt r := by
  have hkr : ¬ k = r := fun h => hr h.symm
  intro tt
  induction tt with
  | nil => simp [insert_add, lookup_rate, List.find?, hkr]
  | cons p rest ih =>
      obtain ⟨q, w⟩ := p
      by_cases h : q = k
      · subst h
        simp [insert_add, lookup_rate, List.find?_cons, hkr]
      · simp only [insert_add, if_neg h, lookup_rate, List.find?_cons] at ih ⊢
        by_cases h2 : q = r
        · simp [h2]
        · simp [h2, lookup_rate] at ih ⊢
          exact ih

theorem lem_pdf_fold_lookup (items : List LineItem) :
    ∀ (a : ℚ) (tt : List (ℚ × ℚ)) (r : ℚ), r ≠ 0 →
      (∀ w, lookup_rate tt r = some w →
        lookup_rate (items.foldl pdf_step (a, tt)).2 r
          = some (w + ((items.filter (fun it => it.tax_percent = r)).map tax_amount).sum))
    ∧ (lookup_rate tt r = none → r ∈ items.map (fun it => it.tax_percent) →
        lookup_rate (items.foldl pdf_step (a, tt)).2 r
          = some (((items.filter (fun it => it.tax_percent = r)).map tax_amount).sum)) := by
  induction items with
  | nil =>
      intro a tt r hr
      constructor
      · intro w hw; simpa using hw
      · intro _ hmem; simp at hmem
  | cons it rest ih =>
      intro a tt r hr
      rw [List.foldl_cons]
      by_cases ht : it.tax_percent = 0
      · have hstep : pdf_step (a, tt) it = (a + taxable it, tt) := by simp [pdf_step, ht]
        have hfil : ¬ it.tax_percent = r := by rw [ht]; exact fun h => hr h.symm
        rw [hstep]
        constructor
        · intro w hw
          have h1 := (ih (a + taxable it) tt r hr).1 w hw
          simpa [List.filter_cons, hfil] using h1
        · intro hn hmem
          have hmem2 : r ∈ rest.map (fun it => it.tax_percent) := by
            rcases List.mem_cons.1 hmem with h | h
            · have h' : r = it.tax_percent := h
              exact absurd (h'.trans ht) hr
            · exact h
          have h2 := (ih (a + taxable it) tt r hr).2 hn hmem2
          simpa [List.filter_cons, hfil] using h2
      · have hstep : pdf_step (a, tt) it
            = (a + taxable it, insert_add tt it.tax_percent (tax_amount it)) := by
          simp [pdf_step, ht]
        rw [hstep]
        by_cases hteq : it.tax_percent = r
        · subst hteq
          constructor
          · intro w hw
            have hl : lookup_rate (insert_add tt it.tax_percent (tax_amount it)) it.tax_percent
                = some (w + tax_amount it) := by
              rw [lem_lookup_insert_self, hw]; rfl
            have h1 := (ih (a + taxable it)
              (insert_add tt it.tax_percent (tax_amount it)) it.tax_percent hr).1
              (w + tax_amount it) hl
            rw [h1]
            simp [List.filter_cons]
            ring
          · intro hn _
            have hl : lookup_rate (insert_add tt it.tax_percent (tax_amount it)) it.tax_percent
                = some (tax_amount it) := by
              rw [lem_lookup_insert_self, hn]; simp
            have h1 := (ih (a + taxable it)
              (insert_add tt it.tax_percent (tax_amount it)) it.tax_percent hr).1
              (tax_amount it) hl
            rw [h1]
            simp [List.filter_cons]
        · have hl : ∀ x, lookup_rate (insert_add tt it.tax_percent (tax_amount it)) r = x
              → lookup_rate tt r = x := by
            intro x hx
            rwa [lem_lookup_insert_other it.tax_percent (tax_amount it) r
              (fun h => hteq h.symm)] at hx
          have hl2 : lookup_rate (insert_add tt it.tax_percent (tax_amount it)) r
              = lookup_rate tt r :=
            lem_lookup_insert_other it.tax_percent (tax_amount it) r (fun h => hteq h.symm) tt
          constructor
          · intro w hw
            have h1 := (ih (a + taxable it)
              (insert_add tt it.tax_percent (tax_amount it)) r hr).1 w (by rw [hl2]; exact hw)
            simpa [List.filter_cons, hteq] using h1
          · intro hn hmem
            have hmem2 : r ∈ rest.map (fun it => it.tax_percent) := by
              rcases List.mem_cons.1 hmem with h | h
              · have h' : r = it.tax_percent := h
                exact absurd h'.symm hteq
              · exact h
            have h1 := (ih (a + taxable it)
              (insert_add tt it.tax_percent (tax_amount it)) r hr).2 (by rw [hl2]; exact hn) hmem2
            simpa [List.filter_cons, hteq] using h1

theorem lem_pdf_fold_keys (items : List LineItem) :
    ∀ (a : ℚ) (tt : List (ℚ × ℚ)),
      (∀ r : ℚ, r ∈ (items.foldl pdf_step (a, tt)).2.map Prod.fst ↔
          (r ∈ tt.map Prod.fst ∨ (r ≠ 0 ∧ r ∈ items.map (fun it => it.tax_percent))))
    ∧ ((tt.map Prod.fst).Nodup → ((items.foldl pdf_step (a, tt)).2.map Prod.fst).Nodup) := by
  induction items with
  | nil => intro a tt; constructor <;> simp
  | cons it rest ih =>
      intro a tt
      rw [List.foldl_cons]
      by_cases ht : it.tax_percent = 0
      · have hstep : pdf_step (a, tt) it = (a + taxable it, tt) := by simp [pdf_step, ht]
        rw [hstep]
        constructor
        · intro r
          rw [(ih (a + taxable it) tt).1 r]
          constructor
          · rintro (h | ⟨h0, h1⟩)
            · exact Or.inl h
            · exact Or.inr ⟨h0, List.mem_cons.2 (Or.inr h1)⟩
          · rintro (h | ⟨h0, h1⟩)
            · exact Or.inl h
            · rcases List.mem_cons.1 h1 with h2 | h2
              · have h' : r = it.tax_percent := h2
                exact absurd (h'.trans ht) h0
              · exact Or.inr ⟨h0, h2⟩
        · exact (ih (a + taxable it) tt).2
      · have hstep : pdf_step (a, tt) it
            = (a + taxable it, insert_add tt it.tax_percent (tax_amount it)) := by
          simp [pdf_step, ht]
        rw [hstep]
        constructor
        · intro r
          rw [(ih (a + taxable it) (insert_add tt it.tax_percent (tax_amount it))).1 r,
            lem_mem_insert_keys]
          constructor
          · rintro ((h | h) | ⟨h0, h1⟩)
            · exact Or.inl h
            · exact Or.inr ⟨h ▸ ht, h ▸ List.mem_cons.2 (Or.inl rfl)⟩
            · exact Or.inr ⟨h0, List.mem_cons.2 (Or.inr h1)⟩
          · rintro (h | ⟨h0, h1⟩)
            · exact Or.inl (Or.inl h)
            · rcases List.mem_cons.1 h1 with h2 | h2
              · have h' : r = it.tax_percent := h2
                exact Or.inl (Or.inr h')
              · exact Or.inr ⟨h0, h2⟩
        · intro hnd
          exact (ih (a + taxable it) (insert_add tt it.tax_percent (tax_amount it))).2
            (lem_nodup_insert_keys tt it.tax_percent (tax_amount it) hnd)

/-- Claim C3: for the same line inputs and the same invoice discount, the
final total computed by `compute_totals` and the final total returned by
`create_invoice_pdf` agree exactly (in the exact rational arithmetic of this
embedding): grouping the per-line tax amounts by rate before summing, and
skipping the zero-rate lines whose tax amount is zero, does not change the
sum. -/
theorem C3_cross_check (items : List LineItem) (d : ℚ) :
    (compute_totals items d).final_total = create_invoice_pdf_final_total items d := by
  rw [lem_compute_totals_eq, lem_pdf_final_eq]

/-- Claim C4 (amended): the renderer's `tax_totals` dict maps each distinct
nonzero tax rate appearing on the lines — and only those; a line whose rate is
`0` is skipped by the `if t_pct:` guard, its tax amount being `0` — to the sum
of the tax amounts of all lines carrying that exact rate (the grouping key is
the rate value, not the line), with no duplicate keys, and the rendered totals
block contains exactly one tax line per distinct nonzero rate present. -/
theorem C4_tax_by_rate (items : List LineItem) :
    ((pdf_totals items).2.map Prod.fst).Nodup
  ∧ (∀ r : ℚ, r ∈ (pdf_totals items).2.map Prod.fst
      ↔ (r ≠ 0 ∧ r ∈ items.map (fun it => it.tax_percent)))
  ∧ (∀ r : ℚ, r ≠ 0 → r ∈ items.map (fun it => it.tax_percent) →
      lookup_rate (pdf_totals items).2 r
        = some (((items.filter (fun it => it.tax_percent = r)).map tax_amount).sum))
  ∧ (rendered_tax_lines items).length
      = ((items.map (fun it => it.tax_percent)).filter (fun r => ¬ r = 0)).toFinset.card := by
  have hkeys := lem_pdf_fold_keys items 0 []
  have hnd : ((pdf_totals items).2.map Prod.fst).Nodup := hkeys.2 (by simp)
  have hmemk : ∀ r : ℚ, r ∈ (pdf_totals items).2.map Prod.fst
      ↔ (r ≠ 0 ∧ r ∈ items.map (fun it => it.tax_percent)) := by
    intro r
    rw [show (pdf_totals items).2 = (items.foldl pdf_step (0, [])).2 from rfl, hkeys.1 r]
    simp
  refine ⟨hnd, hmemk, ?_, ?_⟩
  · intro r hr hmem
    exact (lem_pdf_fold_lookup items 0 [] r hr).2 rfl hmem
  · have hlen1 : (rendered_tax_lines items).length = (pdf_totals items).2.length :=
      (List.perm_insertionSort _ _).length_eq
    have hlen2 : (pdf_totals items).2.length = ((pdf_totals items).2.map Prod.fst).length :=
      (List.length_map _ _).symm
    have hcard : ((pdf_totals items).2.map Prod.fst).toFinset.card
        = ((pdf_totals items).2.map Prod.fst).length := List.toFinset_card_of_nodup hnd
    have hset : ((pdf_totals items).2.map Prod.fst).toFinset
        = ((items.map (fun it => it.tax_percent)).filter (fun r => ¬ r = 0)).toFinset := by
      ext r
      simp only [List.mem_toFinset, List.mem_filter, decide_eq_true_eq]
      rw [hmemk r]
      tauto
    rw [hlen1, hlen2, ← hcard, hset]

/-- Claim C4 counterexample: a single line with tax rate 0.  The rate 0 is
present among the line items, yet the `tax_totals` mapping is empty and the
rendered totals block contains no tax line at all — the mapping does not cover
every distinct rate present, only the nonzero ones. -/
theorem C4_counterexample :
    (0:ℚ) ∈ ([⟨"Widget", 1, 100, 0, 0⟩] : List LineItem).map (fun it => it.tax_percent)
  ∧ (pdf_totals [⟨"Widget", 1, 100, 0, 0⟩]).2 = []
  ∧ rendered_tax_lines [⟨"Widget", 1, 100, 0, 0⟩] = [] := by
  refine ⟨by simp, ?_, ?_⟩
  · norm_num [pdf_totals, pdf_step]
  · norm_num [rendered_tax_lines, pdf_totals, pdf_step, List.insertionSort]

/-- Claim C4 witness: on `exItemsC4` the bucket for the rate 5 holds the
summed tax amounts of the two 5%-rated lines. -/
theorem C4_witness :
    (5:ℚ) ≠ 0
  ∧ lookup_rate (pdf_totals exItemsC4).2 5
      = some (((exItemsC4.filter (fun it => it.tax_percent = (5:ℚ))).map tax_amount).sum) := by
  exact ⟨by norm_num,
    (C4_tax_by_rate exItemsC4).2.2.1 5 (by norm_num) (by simp [exItemsC4])⟩

/-- Claim C5 (amended): the add-item and totals path rejects only non-numeric
input (unparsable quantity, discount or tax) and empty or unknown product
selections; a numeric quantity `≤ 0`, a negative unit price, and negative
discount or tax percentages are accepted without any validation, the row is
added to the invoice, and `compute_totals` processes every numeric line and
returns the arithmetic result — no ValidationError-style rejection exists for
sign or range violations. -/
theorem C5_validation_behaviour (s : Store) (pid : ℕ) (p : Product) (qty : ℤ)
    (d t : ℚ) (q? : Option ℤ) (x? y? : Option ℚ) :
    add_item_to_invoice s none q? x? y? = AddItemResult.err "Invalid product selection"
  ∧ (s.products.find? (fun pr => pr.id = pid) = none →
      add_item_to_invoice s (some pid) q? x? y?
        = AddItemResult.err "Product not found in DB")
  ∧ (s.products.find? (fun pr => pr.id = pid) = some p →
      add_item_to_invoice s (some pid) none x? y?
        = AddItemResult.err "Quantity must be integer")
  ∧ (s.products.find? (fun pr => pr.id = pid) = some p → (x? = none ∨ y? = none) →
      add_item_to_invoice s (some pid) (some qty) x? y?
        = AddItemResult.err "Discount and Tax must be numbers")
  ∧ (s.products.find? (fun pr => pr.id = pid) = some p →
      add_item_to_invoice s (some pid) (some qty) (some d) (some t)
        = AddItemResult.added ⟨pid, p.name, qty, p.price, d, t,
            (p.price * (qty : ℚ) - p.price * (qty : ℚ) * (d / 100))
              + (p.price * (qty : ℚ) - p.price * (qty : ℚ) * (d / 100)) * (t / 100)⟩)
  ∧ (∀ (items : List LineItem) (d' : ℚ),
      compute_totals items d'
        = ⟨(items.map taxable).sum, (items.map tax_amount).sum, d',
            (items.map taxable).sum + (items.map tax_amount).sum
              - (items.map taxable).sum * (d' / 100)⟩) := by
  refine ⟨rfl, ?_, ?_, ?_, ?_, ?_⟩
  · intro h; simp [add_item_to_invoice, h]
  · intro h; simp [add_item_to_invoice, h]
  · intro h hxy
    rcases hxy with rfl | rfl
    · simp [add_item_to_invoice, h]
    · cases x? <;> simp [add_item_to_invoice, h]
  · intro h; simp [add_item_to_invoice, h]
  · intro items d'; exact lem_compute_totals_eq items d'

/-- Claim C5 counterexample: a line with quantity `-2 ≤ 0`, unit price
`-10 < 0` and negative discount and tax percentages is accepted by
`add_item_to_invoice` (no ValidationError, the row is added), and
`compute_totals` — here with a negative invoice discount as well — returns an
ordinary arithmetic result instead of failing. -/
theorem C5_counterexample :
    add_item_to_invoice exStoreC5 (some 1) (some (-2)) (some (-5)) (some (-2))
      = AddItemResult.added ⟨1, "Gadget", -2, -10, -5, -2, 1029/50⟩
  ∧ (compute_totals [⟨"Gadget", -2, -10, -5, -2⟩] (-3)).final_total = 2121/100 := by
  constructor
  · norm_num [add_item_to_invoice, exStoreC5, List.find?]
  · norm_num [compute_totals, taxable, tax_amount, discount_amount, base]

/-- Claim C5 witness: the accepted-row case of the amended claim evaluated on
the concrete catalog `exStoreC5` (whose only product has a negative price). -/
theorem C5_witness :
    exStoreC5.products.find? (fun pr => pr.id = 1) = some ⟨1, "Gadget", -10, ""⟩
  ∧ add_item_to_invoice exStoreC5 (some 1) (some 3) (some 10) (some 2)
      = AddItemResult.added ⟨1, "Gadget", 3, -10, 10, 2,
          ((-10) * ((3 : ℤ) : ℚ) - (-10) * ((3 : ℤ) : ℚ) * (10 / 100))
            + ((-10) * ((3 : ℤ) : ℚ) - (-10) * ((3 : ℤ) : ℚ) * (10 / 100)) * (2 / 100)⟩ := by
  exact ⟨rfl,
    (C5_validation_behaviour exStoreC5 1 ⟨1, "Gadget", -10, ""⟩ 3 10 2 none none none).2.2.2.2.1
      rfl⟩

/-- Claim C6: `save_invoice` stores `date` in the format
`%Y-%m-%d %H:%M:%S` (src/5.py:582), but `generate_invoice_number` counts rows
whose date matches `LIKE '%Y%m%d' + "%"` (src/5.py:113-114).  A dashed date
never starts with the dash-free prefix, so the count is always 0 and every
invoice of a given day is numbered `INV-YYYYMMDD-0001`: after a committed
save on 2026-10-12, a second save the same day still allocates `-0001`,
contradicting the claimed (and intended, per the code's own
"incremental daily" comment) strict increase. -/
theorem C6_number_never_increments :
    like_starts_with exInput1.date_str exInput1.today = false
  ∧ (save_invoice exStore0 exInput1).invoices.length = 1
  ∧ ((save_invoice exStore0 exInput1).invoices.filter
      (fun r => like_starts_with r.date exInput2.today)).length = 0
  ∧ (saved_invoice_row exStore0 exInput1).invoice_number = "INV-20261012-0001"
  ∧ (saved_invoice_row (save_invoice exStore0 exInput1) exInput2).invoice_number
      = "INV-20261012-0001" := by
  refine ⟨by decide, by decide, by decide, by decide, by decide⟩

theorem lem_pbOk_render (items : List LineItem) :
    ∀ topY y : ℚ, pbOk (pdf_render_rows topY y items) = true := by
  induction items with
  | nil => intro topY y; rfl
  | cons it rest ih =>
      intro topY y
      by_cases h : y > 250
      · rw [show pdf_render_rows topY y (it :: rest)
            = REvent.pageBreak :: REvent.headerRow :: REvent.itemRow it ::
                pdf_render_rows topY (topY + 8 + 7) rest from by
          simp [pdf_render_rows, h]]
        simpa [pbOk] using ih topY (topY + 8 + 7)
      · rw [show pdf_render_rows topY y (it :: rest)
            = REvent.itemRow it :: pdf_render_rows topY (y + 7) rest from by
          simp [pdf_render_rows, h]]
        simpa [pbOk] using ih topY (y + 7)

/-- Claim C7: in the item-table loop, whenever the vertical cursor exceeds the
fixed threshold 250 before emitting the next item row, a new page is started
and the full table header row is re-emitted before rendering continues (and
otherwise the row is emitted in place); every page break in the emitted trace
is immediately followed by a header row, and with enough items (here 30 rows
from a table starting at cursor 60) such a break occurs in the middle of the
table, directly between two item rows. -/
theorem C7_pagination :
    (∀ (topY y : ℚ) (items : List LineItem), pbOk (pdf_render_rows topY y items) = true)
  ∧ (∀ (topY y : ℚ) (it : LineItem) (rest : List LineItem), y > 250 →
      pdf_render_rows topY y (it :: rest)
        = REvent.pageBreak :: REvent.headerRow :: REvent.itemRow it ::
            pdf_render_rows topY (topY + 8 + 7) rest)
  ∧ (∀ (topY y : ℚ) (it : LineItem) (rest : List LineItem), ¬ y > 250 →
      pdf_render_rows topY y (it :: rest)
        = REvent.itemRow it :: pdf_render_rows topY (y + 7) rest)
  ∧ hasMidBreak (pdf_render_rows 60 60 (List.replicate 30 ⟨"P", 1, 10, 0, 0⟩)) = true := by
  refine ⟨fun topY y items => lem_pbOk_render items topY y, ?_, ?_, ?_⟩
  · intro topY y it rest h; simp [pdf_render_rows, h]
  · intro topY y it rest h; simp [pdf_render_rows, h]
  · norm_num [pdf_render_rows, hasMidBreak, List.replicate]

/-- Claim C7 witness: at cursor 251 > 250 the next item row is preceded by a
page break and a re-emitted header row. -/
theorem C7_witness :
    ((251 : ℚ) > 250)
  ∧ pdf_render_rows 60 251 [⟨"P", 1, 10, 0, 0⟩]
      = [REvent.pageBreak, REvent.headerRow, REvent.itemRow ⟨"P", 1, 10, 0, 0⟩] :=
  ⟨by norm_num, C7_pagination.2.1 60 251 ⟨"P", 1, 10, 0, 0⟩ [] (by norm_num)⟩

theorem lem_ensure_customer_fields (s : Store) (inp : SaveInput) :
    (ensure_customer s inp).1.products = s.products
  ∧ (ensure_customer s inp).1.invoices = s.invoices
  ∧ (ensure_customer s inp).1.invoice_items = s.invoice_items
  ∧ (ensure_customer s inp).1.files = s.files
  ∧ (ensure_customer s inp).1.nextInvoiceId = s.nextInvoiceId
  ∧ (ensure_customer s inp).1.nextItemId = s.nextItemId := by
  unfold ensure_customer
  cases s.customers.find? (fun cu => cu.name = inp.cust_name ∧ cu.phone = inp.cust_phone) <;>
    simp

theorem lem_read_ops_invoices (ops : List ReadOp) :
    ∀ s : Store, (ops.foldl apply_read_op s).invoices = s.invoices := by
  induction ops with
  | nil => intro s; rfl
  | cons op rest ih =>
      intro s
      rw [List.foldl_cons, ih]
      cases op with
      | refresh => rfl
      | exportExcel ids => rfl
      | preview inp =>
          show (preview_pdf s inp).invoices = s.invoices
          unfold preview_pdf
          split <;> rfl

/-- Claim C2: the invoice row persisted by a successful save satisfies
`final_total = subtotal + taxes − subtotal·(discount_percent/100)` over its
own stored column values (the stored `final_total` is the renderer's return
value, the stored `subtotal` and `taxes` come from `compute_totals`, and the
two computations agree in exact arithmetic), and the later read-style
operations — re-rendering a preview, re-listing history, exporting — never
modify the stored invoice rows. -/
theorem C2_saved_invariant (s : Store) (inp : SaveInput) (h : inp.rows ≠ []) :
    saved_invoice_row s inp ∈ (save_invoice s inp).invoices
  ∧ (saved_invoice_row s inp).final_total
      = (saved_invoice_row s inp).subtotal + (saved_invoice_row s inp).taxes
        - (saved_invoice_row s inp).subtotal
          * ((saved_invoice_row s inp).discount_percent / 100)
  ∧ (∀ ops : List ReadOp,
      (ops.foldl apply_read_op (save_invoice s inp)).invoices
        = (save_invoice s inp).invoices) := by
  refine ⟨?_, ?_, fun ops => lem_read_ops_invoices ops _⟩
  · rw [save_invoice, if_neg h]
    show saved_invoice_row s inp
        ∈ (save_invoice_staged s inp SaveStage.complete).invoices
    simp [save_invoice_staged]
  · have h1 := lem_pdf_final_eq (build_invoice_data_from_form inp.rows) inp.inv_disc_pct
    have h2 := lem_compute_totals_eq (build_invoice_data_from_form inp.rows) inp.inv_disc_pct
    simp [saved_invoice_row, h1, h2]

/-- Claim C2 witness: the stored-row invariant evaluated on the concrete save
of `exInput1` into an empty store. -/
theorem C2_witness :
    exInput1.rows ≠ []
  ∧ (saved_invoice_row exStore0 exInput1).final_total
      = (saved_invoice_row exStore0 exInput1).subtotal
        + (saved_invoice_row exStore0 exInput1).taxes
        - (saved_invoice_row exStore0 exInput1).subtotal
          * ((saved_invoice_row exStore0 exInput1).discount_percent / 100) :=
  ⟨by decide, (C2_saved_invariant exStore0 exInput1 (by decide)).2.1⟩

/-- Claim C8: deleting an invoice id removes exactly the `invoice_items` rows
carrying that `invoice_id` and the `invoices` rows carrying that id; deleting
an id that matches no row (and no orphan item row) leaves the store unchanged
— a no-op, not an error; when the artifact is already missing from disk the
rows are still deleted and the filesystem is untouched; when the artifact is
present it is removed; and after deletion the re-listed history contains no
row with the deleted id. -/
theorem C8_delete_behaviour (s : Store) (iid : ℕ) :
    ((delete_selected_invoice s iid).invoice_items
        = s.invoice_items.filter (fun it => ¬ it.invoice_id = iid)
      ∧ (delete_selected_invoice s iid).invoices
        = s.invoices.filter (fun r => ¬ r.id = iid))
  ∧ ((∀ r ∈ s.invoices, r.id ≠ iid) → (∀ it ∈ s.invoice_items, it.invoice_id ≠ iid) →
      delete_selected_invoice s iid = s)
  ∧ ((∀ r ∈ s.invoices, r.id = iid → r.file_path ∉ s.files) →
      (delete_selected_invoice s iid).files = s.files)
  ∧ (∀ rr, s.invoices.find? (fun r => r.id = iid) = some rr → rr.file_path ≠ "" →
      rr.file_path ∈ s.files →
      (delete_selected_invoice s iid).files = s.files.erase rr.file_path)
  ∧ (∀ hr ∈ refresh_history (delete_selected_invoice s iid), hr.id ≠ iid) := by
  have hfields : (delete_selected_invoice s iid).invoice_items
        = s.invoice_items.filter (fun it => ¬ it.invoice_id = iid)
      ∧ (delete_selected_invoice s iid).invoices
        = s.invoices.filter (fun r => ¬ r.id = iid) := by
    unfold delete_selected_invoice
    cases hf : s.invoices.find? (fun r => r.id = iid) with
    | none => exact ⟨rfl, rfl⟩
    | some r =>
        dsimp only
        by_cases hc : r.file_path ≠ "" ∧ r.file_path ∈ s.files
        · rw [if_pos hc]; exact ⟨rfl, rfl⟩
        · rw [if_neg hc]; exact ⟨rfl, rfl⟩
  refine ⟨hfields, ?_, ?_, ?_, ?_⟩
  · intro h1 h2
    have hnone : s.invoices.find? (fun r => r.id = iid) = none :=
      List.find?_eq_none.2 (fun r hr => by simpa using h1 r hr)
    have e1 : s.invoice_items.filter (fun it => ¬ it.invoice_id = iid) = s.invoice_items :=
      List.filter_eq_self.2 (fun it hit => by simpa using h2 it hit)
    have e2 : s.invoices.filter (fun r => ¬ r.id = iid) = s.invoices :=
      List.filter_eq_self.2 (fun r hr => by simpa using h1 r hr)
    obtain ⟨g1, g2⟩ := hfields
    have hfiles : (delete_selected_invoice s iid).files = s.files := by
      unfold delete_selected_invoice
      rw [hnone]
    have hcust : (delete_selected_invoice s iid).customers = s.customers := by
      unfold delete_selected_invoice
      rw [hnone]
    have hprod : (delete_selected_invoice s iid).products = s.products := by
      unfold delete_selected_invoice
      rw [hnone]
    have hn1 : (delete_selected_invoice s iid).nextCustomerId = s.nextCustomerId := by
      unfold delete_selected_invoice
      rw [hnone]
    have hn2 : (delete_selected_invoice s iid).nextInvoiceId = s.nextInvoiceId := by
      unfold delete_selected_invoice
      rw [hnone]
    have hn3 : (delete_selected_invoice s iid).nextItemId = s.nextItemId := by
      unfold delete_selected_invoice
      rw [hnone]
    refine Store.ext hcust hprod ?_ ?_ hfiles hn1 hn2 hn3
    · rw [g2, e2]
    · rw [g1, e1]
  · intro hmiss
    unfold delete_selected_invoice
    cases hf : s.invoices.find? (fun r => r.id = iid) with
    | none => rfl
    | some r =>
        have hrmem : r ∈ s.invoices := List.mem_of_find?_eq_some hf
        have hrid : r.id = iid := by simpa using List.find?_some hf
        have hout : r.file_path ∉ s.files := hmiss r hrmem hrid
        dsimp only
        rw [if_neg (by tauto)]
  · intro rr hf hne hmem
    unfold delete_selected_invoice
    rw [hf]
    dsimp only
    rw [if_pos ⟨hne, hmem⟩]
  · intro hr hmem
    rcases List.mem_map.1 hmem with ⟨r, hrs, rfl⟩
    have hr2 : r ∈ (delete_selected_invoice s iid).invoices :=
      (List.perm_insertionSort _ _).mem_iff.1 hrs
    rw [hfields.2] at hr2
    have := List.of_mem_filter hr2
    simpa using this

/-- Claim C8 witness: deleting the absent id 2 from the one-invoice store
`exStoreC8` is a no-op. -/
theorem C8_witness :
    (∀ r ∈ exStoreC8.invoices, r.id ≠ 2)
  ∧ (∀ it ∈ exStoreC8.invoice_items, it.invoice_id ≠ 2)
  ∧ delete_selected_invoice exStoreC8 2 = exStoreC8 :=
  ⟨by decide, by decide,
    (C8_delete_behaviour exStoreC8 2).2.1 (by decide) (by decide)⟩

/-- Claim C9 counterexample: stopping `save_invoice` after the header commit
(src/5.py:590) and before the item inserts — the failure-partway point the
claim quantifies over — leaves a committed invoice row (id 1) with zero item
rows, although the save had one line: an invoice row is visible without its
item rows, refuting the claimed all-or-nothing visibility of header and
items. -/
theorem C9_counterexample :
    ((save_invoice_staged exStore0 exInput1 SaveStage.headerCommitted).invoices.map
        (fun r => r.id)) = [1]
  ∧ (save_invoice_staged exStore0 exInput1 SaveStage.headerCommitted).invoice_items = []
  ∧ exInput1.rows.length = 1 := by
  refine ⟨by decide, by decide, by decide⟩

/-- Claim C9 (amended): the save pipeline is sequential with the PDF written
before any row: if the artifact write fails, no invoice row becomes visible;
at every stopping point a newly visible invoice row references an artifact
already written in the same save; and at completion every item row is visible
and carries the new invoice's id.  However, the header row is committed
(src/5.py:590) before the item rows are inserted (src/5.py:592-603), so a
failure between the two commits leaves the invoice row visible without its
item rows (see the counterexample) — the one-unit property holds for
artifact-vs-rows but not for header-vs-items. -/
theorem C9_save_unit (s : Store) (inp : SaveInput) :
    (save_invoice_staged s inp SaveStage.customerDone).invoices = s.invoices
  ∧ (∀ stage, ∀ r ∈ (save_invoice_staged s inp stage).invoices,
      r ∉ s.invoices → r.file_path ∈ (save_invoice_staged s inp stage).files)
  ∧ (∀ it ∈ saved_item_rows s inp,
      it.invoice_id = (saved_invoice_row s inp).id
    ∧ it ∈ (save_invoice_staged s inp SaveStage.complete).invoice_items) := by
  obtain ⟨hp, hi, hii, hf, hni, hnt⟩ := lem_ensure_customer_fields s inp
  refine ⟨hi, ?_, ?_⟩
  · intro stage r hr hnot
    cases stage with
    | customerDone =>
        exact absurd (by rwa [show (save_invoice_staged s inp SaveStage.customerDone).invoices
          = s.invoices from hi] at hr) hnot
    | pdfWritten =>
        have : (save_invoice_staged s inp SaveStage.pdfWritten).invoices = s.invoices := by
          simpa [save_invoice_staged] using hi
        exact absurd (by rwa [this] at hr) hnot
    | headerCommitted =>
        have hinv : (save_invoice_staged s inp SaveStage.headerCommitted).invoices
            = s.invoices ++ [saved_invoice_row s inp] := by
          simp [save_invoice_staged, hi]
        rw [hinv] at hr
        rcases List.mem_append.1 hr with hcase | hcase
        · exact absurd hcase hnot
        · have hcase2 : r = saved_invoice_row s inp := by simpa using hcase
          subst hcase2
          simp [save_invoice_staged]
    | complete =>
        have hinv : (save_invoice_staged s inp SaveStage.complete).invoices
            = s.invoices ++ [saved_invoice_row s inp] := by
          simp [save_invoice_staged, hi]
        rw [hinv] at hr
        rcases List.mem_append.1 hr with hcase | hcase
        · exact absurd hcase hnot
        · have hcase2 : r = saved_invoice_row s inp := by simpa using hcase
          subst hcase2
          simp [save_invoice_staged]
  · intro it hit
    refine ⟨?_, ?_⟩
    · simp only [saved_item_rows] at hit
      rcases List.mem_map.1 hit with ⟨p, hp2, rfl⟩
      rfl
    · show it ∈ (save_invoice_staged s inp SaveStage.complete).invoice_items
      have : (save_invoice_staged s inp SaveStage.complete).invoice_items
          = (ensure_customer s inp).1.invoice_items ++ saved_item_rows s inp := rfl
      rw [this]
      exact List.mem_append.2 (Or.inr hit)

/-- Claim C9 witness: for the concrete save of `exInput1` into the empty
store, the header row visible at the header-commit stage references the PDF
written earlier in the same save. -/
theorem C9_witness :
    saved_invoice_row exStore0 exInput1
        ∈ (save_invoice_staged exStore0 exInput1 SaveStage.headerCommitted).invoices
  ∧ saved_invoice_row exStore0 exInput1 ∉ exStore0.invoices
  ∧ (saved_invoice_row exStore0 exInput1).file_path
      ∈ (save_invoice_staged exStore0 exInput1 SaveStage.headerCommitted).files := by
  have h1 : saved_invoice_row exStore0 exInput1
      ∈ (save_invoice_staged exStore0 exInput1 SaveStage.headerCommitted).invoices := by
    simp [save_invoice_staged]
  have h2 : saved_invoice_row exStore0 exInput1 ∉ exStore0.invoices := by
    simp [exStore0]
  exact ⟨h1, h2,
    (C9_save_unit exStore0 exInput1).2.1 SaveStage.headerCommitted _ h1 h2⟩

/-- Claim C10: the `product_id` stored with each saved item row is resolved at
save time by an exact name lookup in the `products` table — the first product
row whose name equals the snapshot name, or NULL when none matches — and not
from the product id the operator selected when adding the line: on
`exStoreC10` (two distinct products both named "A") a line added from product
id 2 is stored with `product_id = some 1`, and a line whose name matches no
product is stored with `product_id = none`. -/
theorem C10_product_resolution (s : Store) (inp : SaveInput) :
    (∀ it ∈ saved_item_rows s inp,
      it.product_id
        = (s.products.find? (fun pr => pr.name = it.product_name)).map (fun pr => pr.id))
  ∧ (saved_item_rows exStoreC10 exInputC10).map (fun it => it.product_id) = [some 1, none]
  ∧ exInputC10.rows.map (fun r => r.prod_id) = [2, 9] := by
  obtain ⟨hp, _, _, _, _, _⟩ := lem_ensure_customer_fields s inp
  refine ⟨?_, by decide, by decide⟩
  intro it hit
  simp only [saved_item_rows] at hit
  rcases List.mem_map.1 hit with ⟨p, hp2, rfl⟩
  show ((ensure_customer s inp).1.products.find?
      (fun pr => pr.name = p.2.product_name)).map (fun pr => pr.id)
    = (s.products.find? (fun pr => pr.name = p.2.product_name)).map (fun pr => pr.id)
  rw [hp]

/-- Claim C10 witness: the first stored item row of the colliding-names save,
with its name-resolved product id. -/
theorem C10_witness :
    exItemC10 ∈ saved_item_rows exStoreC10 exInputC10
  ∧ exItemC10.product_id
      = (exStoreC10.products.find? (fun pr => pr.name = exItemC10.product_name)).map
          (fun pr => pr.id) := by
  have hmem : exItemC10 ∈ saved_item_rows exStoreC10 exInputC10 := by
    norm_num [saved_item_rows, exStoreC10, exInputC10, exItemC10, ensure_customer,
      build_invoice_data_from_form, line_total, taxable, tax_amount, discount_amount, base,
      List.enum, List.enumFrom, List.find?]
  exact ⟨hmem, (C10_product_resolution exStoreC10 exInputC10).1 exItemC10 hmem⟩

end Invoice5
